import Mathlib

/-!
Verification development for the MSIanalyzer web-app run-orchestration and
configuration-synthesis core (`app.py`).

Strings are modelled as `List Char` (`Str`).  Python dictionaries are modelled
as association lists with insertion-order semantics (`Dict`): inserting an
existing key replaces its value in place, inserting a new key appends it.
Filesystem state is modelled explicitly as a record of directory paths and
file paths, and the two orchestration entry points
(`run_msianalyzer_once`, `run_pileup_and_show`) are modelled as pure functions
from inputs, an external-subprocess behaviour oracle, the filesystem and the
session state to an event trace, the new filesystem and the new session state.
Floats are abstracted as rationals; the one float parameter
(`min_similarity`) is only ever passed through unchanged.
-/

namespace MSIApp

abbrev Str := List Char

abbrev Dict := List (Str × Str)

/-! ### Python string primitives -/

/-- ASCII whitespace as removed by Python `str.strip()`. -/
def pyIsSpace (c : Char) : Bool :=
  (c == ' ') || (c == '\t') || (c == '\n') || (c == '\r') ||
  (c == Char.ofNat 11) || (c == Char.ofNat 12)

/-- Python `str.strip()` (leading and trailing whitespace removed). -/
def pyStrip (s : Str) : Str :=
  ((s.dropWhile pyIsSpace).reverse.dropWhile pyIsSpace).reverse

/-- Line-break characters recognised by Python `str.splitlines()`. -/
def isLineBreak (c : Char) : Bool :=
  (c == '\n') || (c == '\r') || (c == Char.ofNat 11) || (c == Char.ofNat 12) ||
  (c == Char.ofNat 28) || (c == Char.ofNat 29) || (c == Char.ofNat 30) ||
  (c == Char.ofNat 133) || (c == Char.ofNat 8232) || (c == Char.ofNat 8233)

def splitlinesGo (acc : Str) : Str → List Str
  | [] => if acc = [] then [] else [acc.reverse]
  | '\r' :: '\n' :: rest => acc.reverse :: splitlinesGo [] rest
  | c :: rest =>
    if isLineBreak c then acc.reverse :: splitlinesGo [] rest
    else splitlinesGo (c :: acc) rest

/-- Python `str.splitlines()`: `"\r\n"` is a single separator and a trailing
line break does not create a trailing empty line. -/
def splitlines (s : Str) : List Str := splitlinesGo [] s

/-- Python `str.split(sep)` for a one-character separator (never drops empty
fields, `"".split(sep) == [""]`). -/
def pySplit (sep : Char) : Str → List Str
  | [] => [[]]
  | c :: cs =>
    if c = sep then [] :: pySplit sep cs
    else
      match pySplit sep cs with
      | [] => [[c]]
      | h :: t => (c :: h) :: t

/-- Python `sep.join(parts)`. -/
def pyJoin (sep : Str) : List Str → Str
  | [] => []
  | [x] => x
  | x :: xs => x ++ sep ++ pyJoin sep xs

/-- Python `os.path.basename` (POSIX): everything after the last `'/'`. -/
def basename (s : Str) : Str :=
  (s.reverse.takeWhile (fun c => decide (c ≠ '/'))).reverse

/-- Python `str.lower()` (ASCII case folding). -/
def pyLower (s : Str) : Str := s.map Char.toLower

/-- Python `os.path.join` for a relative second component. -/
def joinP (a b : Str) : Str := a ++ '/' :: b

/-- Python `str(n)` for an int. -/
def pyStr (n : Int) : Str := (toString n).toList

/-! ### Identity resolver: `infer_stub_from_filename` (app.py lines 49-65) -/

/-- The extension tuple of `app.py` line 57, in source order. -/
def fastqExts : List Str :=
  [".fastq.gz".toList, ".fq.gz".toList, ".fastq".toList, ".fq".toList]

/-- The `for ext in (...): if base.endswith(ext): base = base[:-len(ext)];
break` loop: strips the first matching extension only. -/
def stripFastqExt (base : Str) : List Str → Str
  | [] => base
  | e :: es =>
    if e <:+ base then base.take (base.length - e.length)
    else stripFastqExt base es

/-- `infer_stub_from_filename` (app.py lines 49-65). -/
def infer_stub_from_filename (filename : Str) : Str :=
  let base := stripFastqExt (basename filename) fastqExts
  let parts := pySplit '_' base
  if 1 < parts.length then pyJoin ['_'] parts.dropLast
  else base

/-! ### Python-dict model -/

/-- Keys of an association-list dict, in insertion order. -/
def dictKeys (m : Dict) : List Str := m.map Prod.fst

/-- Python `mapping[k] = v`: replace in place if the key exists, else append. -/
def dictInsert (m : Dict) (k v : Str) : Dict :=
  if k ∈ dictKeys m then m.map (fun p => if p.1 = k then (k, v) else p)
  else m ++ [(k, v)]

/-- Python `mapping.get(k, d)`. -/
def dictGet (m : Dict) (k d : Str) : Str :=
  match m.find? (fun p => decide (p.1 = k)) with
  | some p => p.2
  | none => d

/-! ### `parse_group_map_text` (app.py lines 68-88) -/

/-- The body of the `for line in text.splitlines()` loop of
`parse_group_map_text`. -/
def processLine (mapping : Dict) (rawLine : Str) : Dict :=
  let line := pyStrip rawLine
  if line = [] then mapping
  else if line.head? = some '#' then mapping
  else if '=' ∈ line then
    let stub := pyStrip (line.takeWhile (fun c => decide (c ≠ '=')))
    let name := pyStrip ((line.dropWhile (fun c => decide (c ≠ '='))).tail)
    if stub ≠ [] ∧ name ≠ [] then dictInsert mapping stub name else mapping
  else mapping

/-- `parse_group_map_text` (app.py lines 68-88). -/
def parse_group_map_text (text : Str) : Dict :=
  (splitlines text).foldl processLine []

/-! ### Marker catalog (app.py lines 17-43) -/

structure MarkerDef where
  seq1 : Str
  seq2 : Str
  motif : Str
deriving DecidableEq

def MARKERS : List (Str × MarkerDef) :=
  [("BAT25".toList,
    ⟨"TCGCCTCCAAGAATGTAA".toList, "ACTATGGCTCTAAAATGCTCTGT".toList, "T".toList⟩),
   ("BAT26".toList,
    ⟨"TGACTACTTTTGACTTCAGCC".toList, "AACCATTCAACATTTTTAACC".toList, "A".toList⟩),
   ("D2S123".toList,
    ⟨"AAACAGGATGCCTGCCTTTA".toList, "GGACTTTCCACCTATGGGAC".toList, "AC".toList⟩),
   ("D5S346".toList,
    ⟨"ACTCACTCTAGTGATAAATCGGG".toList, "AGCAGATAAGACAGTATTACTAGTT".toList,
     "CA".toList⟩),
   ("D17S250".toList,
    ⟨"GGAAGAATCAAATAGACAAT".toList, "GCTGGCCATATATATATTTAAACC".toList,
     "AC".toList⟩)]

/-! ### Config synthesizer: `build_runtime_config` (app.py lines 91-135) -/

/-- The `group_map` loop of `build_runtime_config` (app.py lines 114-118). -/
def build_group_map (fastq_paths : List Str) (user_map : Dict) : Dict :=
  fastq_paths.foldl
    (fun gm fq =>
      let stub := infer_stub_from_filename fq
      dictInsert gm stub (dictGet user_map stub stub))
    []

/-- One step of the `group_map` loop, named for reasoning by induction;
`build_group_map paths um = paths.foldl (groupStep um) []` definitionally. -/
def groupStep (user_map : Dict) (gm : Dict) (fq : Str) : Dict :=
  let stub := infer_stub_from_filename fq
  dictInsert gm stub (dictGet user_map stub stub)

/-- The in-memory `cfg` dictionary built by `build_runtime_config`
(single-marker `markers` mapping flattened into explicit fields). -/
structure RuntimeConfig where
  marker : Str
  seq1 : Str
  seq2 : Str
  motif : Str
  group_map : Dict
  marker_fastq_files : List Str
  min_similarity : ℚ
  anchor_units : Int
  fastq_files : List Str
deriving DecidableEq

def unknownMarkerMsg : Str := "Marker is not defined in MARKERS dict.".toList

/-- `build_runtime_config` (app.py lines 91-135); the `raise ValueError` on an
unknown marker becomes `Except.error`.  The function is pure: it touches no
filesystem state. -/
def build_runtime_config (marker : Str) (fastq_paths : List Str)
    (min_similarity : ℚ) (anchor_units : Int) (user_group_map_text : Str) :
    Except Str RuntimeConfig :=
  match MARKERS.find? (fun p => decide (p.1 = marker)) with
  | none => .error unknownMarkerMsg
  | some p =>
    let user_map := parse_group_map_text user_group_map_text
    let group_map := build_group_map fastq_paths user_map
    .ok
      { marker := marker
        seq1 := p.2.seq1
        seq2 := p.2.seq2
        motif := p.2.motif
        group_map := group_map
        marker_fastq_files := fastq_paths
        min_similarity := min_similarity
        anchor_units := anchor_units
        fastq_files := fastq_paths }

/-! ### Reference resolution: `get_reference_for_marker` (app.py lines 170-190)

The `hg38/` directory next to `app.py` is modelled by an optional listing:
`none` when `EXAMPLES_HG38_DIR.is_dir()` is false, `some files` for the
filenames returned by `os.listdir` (in listing order). -/

def EXAMPLES_HG38_DIR : Str := "hg38".toList

def refDirMissingMsg : Str := "Reference directory not found".toList

def refNoMatchMsg : Str := "No reference FASTA found for marker".toList

/-- The per-filename test of the `os.listdir` loop (app.py lines 183-185):
lowered name ends in `.fa` or `.fasta`, and the lowered marker id is a
substring of the lowered name. -/
def refHit (marker f : Str) : Bool :=
  (decide ((".fa".toList <:+ pyLower f) ∨ (".fasta".toList <:+ pyLower f))) &&
  decide (pyLower marker <:+: pyLower f)

/-- `get_reference_for_marker` (app.py lines 170-190); `raise FileNotFoundError`
becomes `Except.error`. -/
def get_reference_for_marker (hg38 : Option (List Str)) (marker : Str) :
    Except Str Str :=
  match hg38 with
  | none => .error refDirMissingMsg
  | some files =>
    match files.find? (refHit marker) with
    | some f => .ok (joinP EXAMPLES_HG38_DIR f)
    | none => .error refNoMatchMsg

/-! ### Workspace, filesystem and session-state model -/

/-- Filesystem state: directory paths and regular-file paths. -/
structure FS where
  dirs : List Str
  files : List Str
deriving DecidableEq

/-- One entry of the artifact inventory (app.py lines 295-300). -/
structure FileInfo where
  path : Str
  relpath : Str
  name : Str
deriving DecidableEq

/-- `st.session_state["results"]` (app.py lines 303-310). -/
structure Results where
  stdout : Str
  stderr : Str
  returncode : Int
  files : List FileInfo
  fastq_paths : List Str
  marker : Str
deriving DecidableEq

/-- The two session-state keys used by the orchestrator. -/
structure SessionState where
  tmpdir : Option Str
  results : Option Results
deriving DecidableEq

/-- Behaviour of one `subprocess.run` call, supplied as an oracle:
the tool may be missing, time out, or complete with captured output, an
exit code, and the files it created inside the filesystem. -/
inductive ProcBehavior where
  | notFound
  | timedOut
  | completed (stdout stderr : Str) (returncode : Int) (created : List Str)
deriving DecidableEq

/-- Observable side effects of the orchestration, in order. -/
inductive Event where
  | mkdtempEv (dir : Str)
  | makedirsEv (dir : Str)
  | writeFileEv (path : Str)
  | subprocEv (cmd : List Str) (cwd : Str)
  | showOutputEv (stdout stderr : Str)
  | errorEv (msg : Str)
  | stopEv
deriving DecidableEq

/-- The `os.walk(tmpdir)` file-collection loop (app.py lines 289-301 and
322-334): every file under the workspace, with absolute path, path relative
to the workspace root, and bare name. -/
def scanWorkspace (tmpdir : Str) (fs : FS) : List FileInfo :=
  (fs.files.filter (fun p => (tmpdir ++ ['/']).isPrefixOf p)).map
    (fun p => ⟨p, p.drop (tmpdir.length + 1), basename p⟩)

/-- `refresh_results_files` (app.py lines 313-336): full rescan that replaces
`results["files"]`; no-op when there is no tmpdir, no results, or the tmpdir
is not a directory. -/
def refresh_results_files (fs : FS) (st : SessionState) : SessionState :=
  match st.tmpdir, st.results with
  | some tmpdir, some res =>
    if tmpdir ∈ fs.dirs then
      { st with results := some { res with files := scanWorkspace tmpdir fs } }
    else st
  | _, _ => st

/-! ### Process runner command vectors -/

def toolName : Str := "msianalyzer".toList

/-- The primary command vector (app.py lines 257-263).  The Python guard is
`if threads and threads > 1`, i.e. `threads` truthy and greater than one. -/
def buildRunMarkerCmd (marker manifest_path : Str)
    (run_tests skip_variant_summary : Bool) (threads : Int) : List Str :=
  [toolName, "run-marker".toList, marker, manifest_path]
    ++ (if run_tests then ["--run-tests".toList] else [])
    ++ (if skip_variant_summary then ["--skip-variant-summary".toList] else [])
    ++ (if threads ≠ 0 ∧ threads > 1 then ["--threads".toList, pyStr threads]
        else [])

def noFastqMsg : Str := "No FASTQ files were saved.".toList

def cfgFailMsg : Str := "Failed to build marker configuration.".toList

def toolMissingMsg : Str := "Failed to run msianalyzer.".toList

def timeoutMsg : Str := "MSIanalyzer run timed out.".toList

def manifestName : Str := "manifest_runtime.json".toList

/-! ### Primary orchestration: `run_msianalyzer_once` (app.py lines 196-310)

`tmpname` is the fresh directory name handed out by `tempfile.mkdtemp`, and
`proc` the behaviour of the one `subprocess.run` call; both are external
inputs.  The result is the event trace, the final filesystem, and the final
session state (`st.stop()` ends the trace after an error event). -/

def run_msianalyzer_once (tmpname : Str) (proc : ProcBehavior) (marker : Str)
    (fastq_names : List Str) (_min_similarity : ℚ) (_anchor_units : Int)
    (run_tests skip_variant_summary : Bool) (threads : Int)
    (group_map_text : Str) (fs : FS) (st : SessionState) :
    List Event × FS × SessionState :=
  let tmpdir := tmpname
  let st1 : SessionState := { st with tmpdir := some tmpdir }
  let fastq_dir := joinP tmpdir "fastq".toList
  let fastq_paths := fastq_names.map (fun n => joinP fastq_dir n)
  let fs3 : FS := { dirs := fs.dirs ++ [tmpdir, fastq_dir],
                    files := fs.files ++ fastq_paths }
  let ev0 : List Event :=
    Event.mkdtempEv tmpdir :: Event.makedirsEv fastq_dir ::
      fastq_paths.map Event.writeFileEv
  if fastq_paths = [] then
    (ev0 ++ [.errorEv noFastqMsg, .stopEv], fs3, st1)
  else
    match build_runtime_config marker fastq_paths _min_similarity _anchor_units
        group_map_text with
    | .error _ => (ev0 ++ [.errorEv cfgFailMsg, .stopEv], fs3, st1)
    | .ok _cfg =>
      let manifest_path := joinP tmpdir manifestName
      let fs4 : FS := { fs3 with files := fs3.files ++ [manifest_path] }
      let cmd := buildRunMarkerCmd marker manifest_path run_tests
        skip_variant_summary threads
      let ev2 := ev0 ++ [.writeFileEv manifest_path, .subprocEv cmd tmpdir]
      match proc with
      | .notFound => (ev2 ++ [.errorEv toolMissingMsg, .stopEv], fs4, st1)
      | .timedOut => (ev2 ++ [.errorEv timeoutMsg, .stopEv], fs4, st1)
      | .completed out err rc created =>
        let fs5 : FS := { fs4 with files := fs4.files ++ created }
        let res : Results :=
          { stdout := out, stderr := err, returncode := rc,
            files := scanWorkspace tmpdir fs5,
            fastq_paths := fastq_paths, marker := marker }
        (ev2, fs5, { st1 with results := some res })

def noWorkdirMsg : Str := "No working directory found.".toList

def fastqMissingMsg : Str := "FASTQ file not found on disk for pileup".toList

def pileupToolMissingMsg : Str := "Failed to run msianalyzer pileup.".toList

def pileupTimeoutMsg : Str := "Pileup command timed out.".toList

def pileupExitMsg : Str := "msianalyzer pileup exited with nonzero code".toList

/-! ### Secondary orchestration: `run_pileup_and_show` (app.py lines 339-422) -/

def run_pileup_and_show (hg38 : Option (List Str)) (proc : ProcBehavior)
    (marker : Str) (fastq_path : Str) (fs : FS) (st : SessionState) :
    List Event × FS × SessionState :=
  match st.tmpdir with
  | none => ([.errorEv noWorkdirMsg], fs, st)
  | some tmpdir =>
    if tmpdir ∈ fs.dirs then
      match get_reference_for_marker hg38 marker with
      | .error e => ([.errorEv e], fs, st)
      | .ok ref_path =>
        if fastq_path ∈ fs.files then
          let cmd := [toolName, "pileup".toList, fastq_path, ref_path]
          match proc with
          | .notFound =>
            ([.subprocEv cmd tmpdir, .errorEv pileupToolMissingMsg], fs, st)
          | .timedOut =>
            ([.subprocEv cmd tmpdir, .errorEv pileupTimeoutMsg], fs, st)
          | .completed out err rc created =>
            let fs2 : FS := { fs with files := fs.files ++ created }
            let ev := [Event.subprocEv cmd tmpdir, Event.showOutputEv out err]
            if rc ≠ 0 then (ev ++ [.errorEv pileupExitMsg], fs2, st)
            else (ev, fs2, refresh_results_files fs2 st)
        else ([.errorEv fastqMissingMsg], fs, st)
    else ([.errorEv noWorkdirMsg], fs, st)

/-! ### Spec-side restatements (for refinement comparison) -/

/-- Extension stripping as worded by the spec: a trailing recognized
read-file extension is removed, checked in the fixed priority order
`.fastq.gz`, `.fq.gz`, `.fastq`, `.fq`. -/
def stripExtSpec (base : Str) : Str :=
  if ".fastq.gz".toList <:+ base then
    base.take (base.length - ".fastq.gz".toList.length)
  else if ".fq.gz".toList <:+ base then
    base.take (base.length - ".fq.gz".toList.length)
  else if ".fastq".toList <:+ base then
    base.take (base.length - ".fastq".toList.length)
  else if ".fq".toList <:+ base then
    base.take (base.length - ".fq".toList.length)
  else base

/-- Stub inference as worded by the spec: strip the extension, and if the
stripped base name contains at least one underscore, drop exactly the final
underscore-delimited segment and rejoin the rest with underscores; otherwise
return the stripped base name unchanged. -/
def infer_stub_spec (filename : Str) : Str :=
  let base := stripExtSpec (basename filename)
  if '_' ∈ base then pyJoin ['_'] ((pySplit '_' base).dropLast)
  else base

/-! ### Helper lemmas -/

theorem pySplit_ne_nil (sep : Char) : ∀ l : Str, pySplit sep l ≠ []
  | [] => by simp [pySplit]
  | c :: cs => by
    simp only [pySplit]
    split
    · simp
    · split
      · simp
      · simp

theorem pySplit_cons_of_ne (sep c : Char) (cs : Str) (h : ¬ c = sep) :
    pySplit sep (c :: cs) =
      (c :: (pySplit sep cs).headD []) :: (pySplit sep cs).tail := by
  obtain ⟨x, xs, hx⟩ : ∃ x xs, pySplit sep cs = x :: xs := by
    cases hxx : pySplit sep cs with
    | nil => exact absurd hxx (pySplit_ne_nil sep cs)
    | cons x xs => exact ⟨x, xs, rfl⟩
  simp only [pySplit, if_neg h, hx]
  simp

theorem one_lt_pySplit_length (sep : Char) (l : Str) :
    1 < (pySplit sep l).length ↔ sep ∈ l := by
  induction l with
  | nil => simp [pySplit]
  | cons c cs ih =>
    by_cases h : c = sep
    · subst h
      have h1 : pySplit c (c :: cs) = [] :: pySplit c cs := by
        simp [pySplit]
      have h2 : 0 < (pySplit c cs).length :=
        List.length_pos.mpr (pySplit_ne_nil c cs)
      rw [h1]
      simp only [List.length_cons]
      constructor
      · intro _
        simp
      · intro _
        omega
    · rw [pySplit_cons_of_ne sep c cs h]
      have h2 : (pySplit sep cs).length = (pySplit sep cs).tail.length + 1 := by
        cases hxx : pySplit sep cs with
        | nil => exact absurd hxx (pySplit_ne_nil sep cs)
        | cons x xs => simp
      simp only [List.length_cons, List.mem_cons]
      constructor
      · intro hl
        right
        rw [← ih]
        omega
      · intro hm
        rcases hm with hm | hm
        · exact absurd hm.symm h
        · have := ih.mpr hm
          omega

theorem stripFastqExt_eq_spec (base : Str) :
    stripFastqExt base fastqExts = stripExtSpec base := by
  simp only [stripFastqExt, fastqExts, stripExtSpec]

theorem pyJoin_cons_ne_nil (sep : Str) (x : Str) (xs : List Str)
    (h : x ≠ []) : pyJoin sep (x :: xs) ≠ [] := by
  cases xs with
  | nil => simpa [pyJoin] using h
  | cons y ys => simp [pyJoin, h]

theorem stripFastqExt_cases : ∀ (exts : List Str) (base : Str),
    stripFastqExt base exts = base ∨
      ∃ e ∈ exts, stripFastqExt base exts ++ e = base := by
  intro exts
  induction exts with
  | nil => intro base; left; rfl
  | cons e es ih =>
    intro base
    by_cases h : e <:+ base
    · right
      refine ⟨e, List.mem_cons_self e es, ?_⟩
      simp only [stripFastqExt, if_pos h]
      obtain ⟨t, ht⟩ := h
      subst ht
      rw [List.length_append, Nat.add_sub_cancel, List.take_left]
    · simp only [stripFastqExt, if_neg h]
      rcases ih base with h1 | ⟨e1, he1, h1⟩
      · exact Or.inl h1
      · exact Or.inr ⟨e1, List.mem_cons_of_mem e he1, h1⟩

/-! ## Claim theorems -/

/-- Claim C1: `infer_stub_from_filename` strips one trailing recognized
read-file extension in the fixed priority order `.fastq.gz`, `.fq.gz`,
`.fastq`, `.fq`, then drops exactly the final underscore-delimited segment
when the stripped base name contains at least one underscore, and otherwise
returns the stripped base name unchanged; in particular
`infer_stub("BVSBWG_3_500x.fastq.gz") = "BVSBWG_3"` and
`infer_stub("SAMPLE.fq") = "SAMPLE"`. -/
theorem claim_C1 :
    (∀ f : Str, infer_stub_from_filename f = infer_stub_spec f) ∧
    infer_stub_from_filename "BVSBWG_3_500x.fastq.gz".toList
      = "BVSBWG_3".toList ∧
    infer_stub_from_filename "SAMPLE.fq".toList = "SAMPLE".toList := by
  refine ⟨?_, by decide, by decide⟩
  intro f
  unfold infer_stub_from_filename infer_stub_spec
  rw [stripFastqExt_eq_spec]
  by_cases h : '_' ∈ stripExtSpec (basename f)
  · rw [if_pos ((one_lt_pySplit_length '_' _).mpr h), if_pos h]
  · rw [if_neg (fun hl => h ((one_lt_pySplit_length '_' _).mp hl)), if_neg h]

/-- Claim C4 counterexample: the non-empty filenames `".fq"` and `"_1.fq"`
are both mapped to the empty string by `infer_stub_from_filename`, so stub
inference does not always return a non-empty string on non-empty input. -/
theorem claim_C4_counterexample :
    (".fq".toList ≠ ([] : Str) ∧
      infer_stub_from_filename ".fq".toList = []) ∧
    ("_1.fq".toList ≠ ([] : Str) ∧
      infer_stub_from_filename "_1.fq".toList = []) := by
  decide

/-- Claim C4 (amended): stub inference is total and deterministic (it is a
pure function on filenames, with no error path), but its result can be empty
even for a non-empty filename; it is guaranteed non-empty whenever the
extension-stripped base name is non-empty and does not start with an
underscore. -/
theorem claim_C4_amended (f : Str)
    (h1 : stripFastqExt (basename f) fastqExts ≠ [])
    (h2 : (stripFastqExt (basename f) fastqExts).head? ≠ some '_') :
    infer_stub_from_filename f ≠ [] := by
  unfold infer_stub_from_filename
  set base := stripFastqExt (basename f) fastqExts with hb
  by_cases h : 1 < (pySplit '_' base).length
  · rw [if_pos h]
    obtain ⟨c, cs, hcs⟩ := List.exists_cons_of_ne_nil h1
    have hc : ¬ c = '_' := by
      intro hcc
      apply h2
      rw [hcs, hcc]
      rfl
    rw [hcs] at h ⊢
    rw [pySplit_cons_of_ne '_' c cs hc] at h ⊢
    have ht : (pySplit '_' cs).tail ≠ [] := by
      intro hnil
      rw [hnil] at h
      simp at h
    obtain ⟨t1, t2, ht12⟩ := List.exists_cons_of_ne_nil ht
    rw [ht12]
    rw [List.dropLast_cons_of_ne_nil (by simp)]
    exact pyJoin_cons_ne_nil _ _ _ (by simp)
  · rw [if_neg h]
    exact h1

/-- Claim C4 witness: a concrete filename on which the amended guarantee
applies. -/
theorem claim_C4_witness :
    infer_stub_from_filename "SAMPLE.fq".toList ≠ [] :=
  claim_C4_amended "SAMPLE.fq".toList (by decide) (by decide)

/-- Claim C10: `infer_stub_from_filename` strips at most one recognized
extension (the result either equals the base or differs from it by exactly
one extension of the list, so stacked extensions keep all but the outermost:
the base of `"A_1.fastq.fastq"` becomes `"A_1.fastq"`, not `"A_1"`), and in
`parse_group_map_text` a `#` starts a comment only as the first character of
a trimmed line, so `#` within a `stub = name` line is kept in the name. -/
theorem claim_C10 :
    (∀ base : Str,
        stripFastqExt base fastqExts = base ∨
          ∃ e ∈ fastqExts, stripFastqExt base fastqExts ++ e = base) ∧
    stripFastqExt "A_1.fastq.fastq".toList fastqExts = "A_1.fastq".toList ∧
    parse_group_map_text "a = b # comment".toList
      = [("a".toList, "b # comment".toList)] := by
  refine ⟨fun base => stripFastqExt_cases fastqExts base, by decide, by decide⟩

/-! ### Dict lemmas -/

theorem dictKeys_dictInsert (m : Dict) (k v : Str) :
    dictKeys (dictInsert m k v)
      = if k ∈ dictKeys m then dictKeys m else dictKeys m ++ [k] := by
  unfold dictInsert
  split_ifs with hk
  · unfold dictKeys
    rw [List.map_map]
    apply List.map_congr_left
    intro p _
    by_cases hpk : p.1 = k
    · simp [Function.comp, hpk]
    · simp [Function.comp, hpk]
  · unfold dictKeys
    simp

theorem mem_dictKeys_dictInsert (m : Dict) (k v s : Str) :
    s ∈ dictKeys (dictInsert m k v) ↔ s ∈ dictKeys m ∨ s = k := by
  rw [dictKeys_dictInsert]
  split_ifs with hk
  · constructor
    · exact Or.inl
    · rintro (h | rfl)
      · exact h
      · exact hk
  · simp

theorem nodup_dictKeys_dictInsert (m : Dict) (k v : Str)
    (h : (dictKeys m).Nodup) : (dictKeys (dictInsert m k v)).Nodup := by
  rw [dictKeys_dictInsert]
  split_ifs with hk
  · exact h
  · rw [List.nodup_append]
    refine ⟨h, List.nodup_singleton k, ?_⟩
    intro a ha hak
    rw [List.mem_singleton] at hak
    exact hk (hak ▸ ha)

theorem mem_dictInsert (m : Dict) (k v : Str) (s w : Str)
    (h : (s, w) ∈ dictInsert m k v) :
    ((s, w) ∈ m ∧ s ≠ k) ∨ (s = k ∧ w = v) := by
  unfold dictInsert at h
  split_ifs at h with hk
  · obtain ⟨p, hp, hfp⟩ := List.mem_map.mp h
    by_cases hpk : p.1 = k
    · rw [if_pos hpk] at hfp
      right
      exact ⟨(congrArg Prod.fst hfp).symm, (congrArg Prod.snd hfp).symm⟩
    · rw [if_neg hpk] at hfp
      subst hfp
      exact Or.inl ⟨hp, fun hsk => hpk hsk⟩
  · rw [List.mem_append] at h
    rcases h with h | h
    · refine Or.inl ⟨h, fun hsk => hk ?_⟩
      subst hsk
      exact List.mem_map_of_mem Prod.fst h
    · rw [List.mem_singleton] at h
      exact Or.inr ⟨congrArg Prod.fst h, congrArg Prod.snd h⟩

theorem build_group_map_eq_foldl (paths : List Str) (um : Dict) :
    build_group_map paths um = paths.foldl (groupStep um) [] := rfl

theorem groupFold_keys (um : Dict) :
    ∀ (paths : List Str) (m : Dict) (s : Str),
      s ∈ dictKeys (paths.foldl (groupStep um) m) ↔
        s ∈ dictKeys m ∨ s ∈ paths.map infer_stub_from_filename := by
  intro paths
  induction paths with
  | nil => intro m s; simp
  | cons p ps ih =>
    intro m s
    rw [List.foldl_cons, ih]
    simp only [groupStep]
    rw [mem_dictKeys_dictInsert]
    simp only [List.map_cons, List.mem_cons]
    tauto

theorem groupFold_nodup (um : Dict) :
    ∀ (paths : List Str) (m : Dict),
      (dictKeys m).Nodup → (dictKeys (paths.foldl (groupStep um) m)).Nodup := by
  intro paths
  induction paths with
  | nil => intro m h; exact h
  | cons p ps ih =>
    intro m h
    rw [List.foldl_cons]
    exact ih _ (nodup_dictKeys_dictInsert m _ _ h)

theorem groupFold_values (um : Dict) :
    ∀ (paths : List Str) (m : Dict),
      (∀ s w, (s, w) ∈ m → w = dictGet um s s) →
      ∀ s w, (s, w) ∈ paths.foldl (groupStep um) m → w = dictGet um s s := by
  intro paths
  induction paths with
  | nil => intro m h; exact h
  | cons p ps ih =>
    intro m h
    rw [List.foldl_cons]
    apply ih
    intro s w hsw
    have hsw' : (s, w) ∈ dictInsert m (infer_stub_from_filename p)
        (dictGet um (infer_stub_from_filename p) (infer_stub_from_filename p)) :=
      hsw
    rcases mem_dictInsert _ _ _ _ _ hsw' with ⟨hm, _⟩ | ⟨hs, hw⟩
    · exact h s w hm
    · rw [hs]
      exact hw

/-- Claim C5: the group map has exactly one entry per distinct inferred stub
(keys are exactly the stubs of the input paths, without duplicates), each
stub's display name is the override value when present and the stub itself
otherwise, paths inferring the same stub collapse to one entry, and the map
inside a successfully built runtime config is exactly this group map.  E.g.
stubs `A`, `B` with override `A = X` give `{A: X, B: B}`. -/
theorem claim_C5 :
    (∀ (paths : List Str) (um : Dict),
        (dictKeys (build_group_map paths um)).Nodup ∧
        (∀ s, s ∈ dictKeys (build_group_map paths um) ↔
            s ∈ paths.map infer_stub_from_filename) ∧
        (∀ s w, (s, w) ∈ build_group_map paths um → w = dictGet um s s)) ∧
    build_group_map ["A_1.fq".toList, "B_1.fq".toList]
        [("A".toList, "X".toList)]
      = [("A".toList, "X".toList), ("B".toList, "B".toList)] ∧
    build_group_map ["A_1.fq".toList, "A_2.fq".toList] []
      = [("A".toList, "A".toList)] ∧
    (∀ (marker : Str) (ps : List Str) (ms : ℚ) (au : Int) (t : Str)
        (cfg : RuntimeConfig),
        build_runtime_config marker ps ms au t = Except.ok cfg →
        cfg.group_map = build_group_map ps (parse_group_map_text t)) := by
  refine ⟨?_, by decide, by decide, ?_⟩
  · intro paths um
    rw [build_group_map_eq_foldl]
    refine ⟨groupFold_nodup um paths [] (by simp [dictKeys]),
      fun s => ?_, groupFold_values um paths [] (by simp)⟩
    rw [groupFold_keys]
    simp [dictKeys]
  · intro marker ps ms au t cfg h
    unfold build_runtime_config at h
    cases hf : MARKERS.find? (fun p => decide (p.1 = marker)) with
    | none =>
      rw [hf] at h
      exact Except.noConfusion h
    | some q =>
      rw [hf] at h
      simp only [Except.ok.injEq] at h
      rw [← h]

/-- Claim C5 witness: the general theorem applied to the concrete example. -/
theorem claim_C5_witness :
    "X".toList = dictGet [("A".toList, "X".toList)] "A".toList "A".toList := by
  have h := (claim_C5.1 ["A_1.fq".toList, "B_1.fq".toList]
    [("A".toList, "X".toList)]).2.2 "A".toList "X".toList (by decide)
  exact h.symm ▸ rfl

/-- Claim C6: `parse_group_map_text` never fails: blank lines, `#`-comment
lines, lines without `=`, and lines whose stub or name is empty after
trimming are skipped; well-formed `stub = name` lines are inserted with both
sides trimmed; parsing is idempotent; and the concrete example parses as
stated. -/
theorem claim_C6 :
    (∀ (m : Dict) (raw : Str), pyStrip raw = [] → processLine m raw = m) ∧
    (∀ (m : Dict) (raw : Str), (pyStrip raw).head? = some '#' →
        processLine m raw = m) ∧
    (∀ (m : Dict) (raw : Str), '=' ∉ pyStrip raw → processLine m raw = m) ∧
    (∀ (m : Dict) (raw : Str),
        pyStrip ((pyStrip raw).takeWhile (fun c => decide (c ≠ '='))) = [] →
        processLine m raw = m) ∧
    (∀ (m : Dict) (raw : Str),
        pyStrip (((pyStrip raw).dropWhile (fun c => decide (c ≠ '='))).tail)
            = [] →
        processLine m raw = m) ∧
    (∀ (m : Dict) (raw : Str),
        pyStrip raw ≠ [] → (pyStrip raw).head? ≠ some '#' →
        '=' ∈ pyStrip raw →
        pyStrip ((pyStrip raw).takeWhile (fun c => decide (c ≠ '='))) ≠ [] →
        pyStrip (((pyStrip raw).dropWhile (fun c => decide (c ≠ '='))).tail)
            ≠ [] →
        processLine m raw =
          dictInsert m
            (pyStrip ((pyStrip raw).takeWhile (fun c => decide (c ≠ '='))))
            (pyStrip
              (((pyStrip raw).dropWhile (fun c => decide (c ≠ '='))).tail))) ∧
    (∀ t : Str, parse_group_map_text t = parse_group_map_text t) ∧
    parse_group_map_text "BVSBWG_3 = Sample1\n# comment\nbadline\n".toList
      = [("BVSBWG_3".toList, "Sample1".toList)] := by
  refine ⟨?_, ?_, ?_, ?_, ?_, ?_, fun t => rfl, by decide⟩
  · intro m raw h
    simp only [processLine]
    rw [if_pos h]
  · intro m raw h
    simp only [processLine]
    by_cases h0 : pyStrip raw = []
    · rw [if_pos h0]
    · rw [if_neg h0, if_pos h]
  · intro m raw h
    simp only [processLine]
    split_ifs with h1 h2 <;> rfl
  · intro m raw h
    simp only [processLine]
    split_ifs with h1 h2 h3 h4 <;> first | rfl | exact absurd h h4.1
  · intro m raw h
    simp only [processLine]
    split_ifs with h1 h2 h3 h4 <;> first | rfl | exact absurd h h4.2
  · intro m raw hne hhash heq hstub hname
    simp only [processLine]
    rw [if_neg hne, if_neg hhash, if_pos heq, if_pos ⟨hstub, hname⟩]

/-- Claim C6 witness: the skip rule applied to the concrete malformed line. -/
theorem claim_C6_witness :
    processLine [] "badline".toList = ([] : Dict) :=
  claim_C6.2.2.1 [] "badline".toList (by decide)

/-! ### Config-synthesizer outcome lemmas -/

theorem build_runtime_config_unknown (marker : Str) (ps : List Str) (ms : ℚ)
    (au : Int) (t : Str) (h : marker ∉ MARKERS.map Prod.fst) :
    build_runtime_config marker ps ms au t = Except.error unknownMarkerMsg := by
  unfold build_runtime_config
  have hf : MARKERS.find? (fun p => decide (p.1 = marker)) = none := by
    rw [List.find?_eq_none]
    intro x hx
    simp only [decide_eq_true_eq]
    intro heq
    exact h (heq ▸ List.mem_map_of_mem Prod.fst hx)
  rw [hf]

theorem build_runtime_config_ok_of_mem (marker : Str) (ps : List Str)
    (ms : ℚ) (au : Int) (t : Str) (h : marker ∈ MARKERS.map Prod.fst) :
    ∃ cfg, build_runtime_config marker ps ms au t = Except.ok cfg := by
  unfold build_runtime_config
  obtain ⟨p, hp, hpk⟩ := List.mem_map.mp h
  have hsome : (MARKERS.find? (fun q => decide (q.1 = marker))).isSome := by
    rw [List.find?_isSome]
    exact ⟨p, hp, by simp [hpk]⟩
  obtain ⟨q, hq⟩ := Option.isSome_iff_exists.mp hsome
  rw [hq]
  exact ⟨_, rfl⟩

/-- Claim C2 counterexample: with the unknown marker id `"FOO"` and one
uploaded file, the orchestration has already written that file to disk
(inside the fresh workspace) before `build_runtime_config` reports the
unknown-marker error, so "nothing is written to disk" fails. -/
theorem claim_C2_counterexample :
    "FOO".toList ∉ MARKERS.map Prod.fst ∧
    Event.writeFileEv "tmp/fastq/a_1.fq".toList ∈
      (run_msianalyzer_once "tmp".toList
        (ProcBehavior.completed [] [] 0 []) "FOO".toList ["a_1.fq".toList]
        0 3 false false 4 [] ⟨[], []⟩ ⟨none, none⟩).1 := by
  decide

/-- Claim C2 (amended): with a marker id not in the catalog, the run stops
with the configuration error before the manifest is written and before any
subprocess is invoked, and the stored results are unchanged
(`build_runtime_config` itself is a pure function that performs no
filesystem work); however, the workspace directory and the uploaded FASTQ
files have already been written to disk by the time the error is raised. -/
theorem claim_C2_amended (tmpname : Str) (proc : ProcBehavior) (marker : Str)
    (names : List Str) (ms : ℚ) (au : Int) (rt sv : Bool) (th : Int)
    (gmt : Str) (fs : FS) (st : SessionState)
    (hm : marker ∉ MARKERS.map Prod.fst) (hn : names ≠ []) :
    (run_msianalyzer_once tmpname proc marker names ms au rt sv th gmt
        fs st).1
      = (Event.mkdtempEv tmpname
          :: Event.makedirsEv (joinP tmpname "fastq".toList)
          :: (names.map fun n =>
                Event.writeFileEv (joinP (joinP tmpname "fastq".toList) n)))
        ++ [Event.errorEv cfgFailMsg, Event.stopEv] ∧
    (∀ c w, Event.subprocEv c w ∉
      (run_msianalyzer_once tmpname proc marker names ms au rt sv th gmt
        fs st).1) ∧
    Event.writeFileEv (joinP tmpname manifestName) ∉
      (run_msianalyzer_once tmpname proc marker names ms au rt sv th gmt
        fs st).1 ∧
    (run_msianalyzer_once tmpname proc marker names ms au rt sv th gmt
        fs st).2.2.results = st.results ∧
    (run_msianalyzer_once tmpname proc marker names ms au rt sv th gmt
        fs st).2.1
      = ⟨fs.dirs ++ [tmpname, joinP tmpname "fastq".toList],
         fs.files ++ names.map fun n =>
           joinP (joinP tmpname "fastq".toList) n⟩ := by
  have hb := build_runtime_config_unknown marker
    (names.map fun n => joinP (joinP tmpname "fastq".toList) n) ms au gmt hm
  have hne : ¬ (names.map fun n => joinP (joinP tmpname "fastq".toList) n)
      = [] := by
    simp [hn]
  have hrun : run_msianalyzer_once tmpname proc marker names ms au rt sv th
      gmt fs st
      = ((Event.mkdtempEv tmpname
            :: Event.makedirsEv (joinP tmpname "fastq".toList)
            :: (names.map fun n =>
                  Event.writeFileEv (joinP (joinP tmpname "fastq".toList) n)))
          ++ [Event.errorEv cfgFailMsg, Event.stopEv],
         ⟨fs.dirs ++ [tmpname, joinP tmpname "fastq".toList],
          fs.files ++ names.map fun n =>
            joinP (joinP tmpname "fastq".toList) n⟩,
         { st with tmpdir := some tmpname }) := by
    unfold run_msianalyzer_once
    simp only [hb, if_neg hne, List.map_map, Function.comp_def]
  refine ⟨by rw [hrun], ?_, ?_, by rw [hrun], by rw [hrun]⟩
  · intro c w
    rw [hrun]
    simp
  · rw [hrun]
    intro hmem
    simp only [List.cons_append, List.mem_cons, List.mem_append,
      List.mem_map, List.mem_singleton, List.not_mem_nil, or_false] at hmem
    rcases hmem with h1 | h1 | ⟨n, _, h1⟩ | h1 | h1 <;>
      first
      | exact Event.noConfusion h1
      | skip
    have hp : joinP (joinP tmpname "fastq".toList) n = joinP tmpname
        manifestName := by
      injection h1
    unfold joinP at hp
    rw [List.append_assoc] at hp
    have h2 := List.append_cancel_left hp
    rw [List.cons_append] at h2
    have h3 : "fastq".toList ++ '/' :: n = manifestName := by
      injection h2
    have h4 := congrArg List.head? h3
    rw [show (manifestName).head? = some 'm' from rfl] at h4
    rw [show ("fastq".toList ++ '/' :: n).head? = some 'f' from rfl] at h4
    exact absurd h4 (by decide)

/-- Claim C2 witness: the amended theorem applied at a concrete unknown
marker. -/
theorem claim_C2_witness :
    (run_msianalyzer_once "tmp".toList
      (ProcBehavior.completed [] [] 0 []) "FOO".toList ["a_1.fq".toList]
      0 3 false false 4 [] ⟨[], []⟩ ⟨none, none⟩).2.2.results = none :=
  (claim_C2_amended "tmp".toList (ProcBehavior.completed [] [] 0 [])
    "FOO".toList ["a_1.fq".toList] 0 3 false false 4 [] ⟨[], []⟩
    ⟨none, none⟩ (by decide) (by decide)).2.2.2.1

/-- Claim C3 counterexample: a pileup invocation that completes with exit
code 1 while creating `tmp/plot.png` leaves the session state (and hence the
stored inventory) completely unchanged — the artifact collector does not run
on the nonzero-exit pileup path, even though a rescan of the final workspace
would have discovered the new artifact. -/
theorem claim_C3_counterexample :
    (run_pileup_and_show (some ["BAT25.fa".toList])
        (ProcBehavior.completed [] [] 1 ["tmp/plot.png".toList])
        "BAT25".toList "tmp/a_1.fq".toList
        ⟨["tmp".toList], ["tmp/a_1.fq".toList]⟩
        ⟨some "tmp".toList,
         some ⟨[], [], 0, [], ["tmp/a_1.fq".toList], "BAT25".toList⟩⟩).2.2
      = ⟨some "tmp".toList,
         some ⟨[], [], 0, [], ["tmp/a_1.fq".toList], "BAT25".toList⟩⟩ ∧
    (⟨"tmp/plot.png".toList, "plot.png".toList, "plot.png".toList⟩ : FileInfo)
      ∈ scanWorkspace "tmp".toList
          (run_pileup_and_show (some ["BAT25.fa".toList])
            (ProcBehavior.completed [] [] 1 ["tmp/plot.png".toList])
            "BAT25".toList "tmp/a_1.fq".toList
            ⟨["tmp".toList], ["tmp/a_1.fq".toList]⟩
            ⟨some "tmp".toList,
             some ⟨[], [], 0, [], ["tmp/a_1.fq".toList],
               "BAT25".toList⟩⟩).2.1 := by
  decide

/-- Claim C3 (amended): a nonzero exit of the primary invocation is not
fatal — stdout, stderr and the exit code are stored and the artifact
collector runs, so the stored inventory is the scan of the final workspace.
For the pileup invocation, stdout/stderr are still displayed on a nonzero
exit, but the function returns before `refresh_results_files`, so the
stored inventory is NOT refreshed (session state is unchanged) even though
the created files are on disk. -/
theorem claim_C3_amended :
    (∀ (tmpname out err : Str) (rc : Int) (created : List Str) (marker : Str)
        (names : List Str) (ms : ℚ) (au : Int) (rt sv : Bool) (th : Int)
        (gmt : Str) (fs : FS) (st : SessionState),
        marker ∈ MARKERS.map Prod.fst → names ≠ [] →
        (run_msianalyzer_once tmpname
            (ProcBehavior.completed out err rc created) marker names ms au
            rt sv th gmt fs st).2.2.results
          = some
              { stdout := out, stderr := err, returncode := rc,
                files := scanWorkspace tmpname
                  (run_msianalyzer_once tmpname
                    (ProcBehavior.completed out err rc created) marker names
                    ms au rt sv th gmt fs st).2.1,
                fastq_paths := names.map fun n =>
                  joinP (joinP tmpname "fastq".toList) n,
                marker := marker }) ∧
    (∀ (hg38 : Option (List Str)) (out err : Str) (rc : Int)
        (created : List Str) (marker fq : Str) (fs : FS) (st : SessionState)
        (tmpdir ref : Str),
        st.tmpdir = some tmpdir → tmpdir ∈ fs.dirs →
        get_reference_for_marker hg38 marker = Except.ok ref →
        fq ∈ fs.files → rc ≠ 0 →
        (run_pileup_and_show hg38 (ProcBehavior.completed out err rc created)
            marker fq fs st).2.2 = st ∧
        Event.showOutputEv out err ∈
          (run_pileup_and_show hg38
            (ProcBehavior.completed out err rc created) marker fq fs st).1 ∧
        (run_pileup_and_show hg38 (ProcBehavior.completed out err rc created)
            marker fq fs st).2.1 = ⟨fs.dirs, fs.files ++ created⟩) := by
  constructor
  · intro tmpname out err rc created marker names ms au rt sv th gmt fs st
      hm hn
    obtain ⟨cfg, hcfg⟩ := build_runtime_config_ok_of_mem marker
      (names.map fun n => joinP (joinP tmpname "fastq".toList) n) ms au gmt hm
    have hne : ¬ (names.map fun n => joinP (joinP tmpname "fastq".toList) n)
        = [] := by
      simp [hn]
    unfold run_msianalyzer_once
    simp only [hcfg, if_neg hne, List.map_map, Function.comp_def]
  · intro hg38 out err rc created marker fq fs st tmpdir ref hst hdir href
      hfq hrc
    unfold run_pileup_and_show
    simp only [hst, href, if_pos hdir, if_pos hfq, if_pos hrc]
    simp

/-- Claim C3 witness: the primary-path guarantee at a concrete nonzero exit
code. -/
theorem claim_C3_witness :
    (run_msianalyzer_once "tmp".toList
        (ProcBehavior.completed "o".toList "e".toList 2 []) "BAT25".toList
        ["a_1.fq".toList] 0 3 false false 1 [] ⟨[], []⟩
        ⟨none, none⟩).2.2.results
      = some
          { stdout := "o".toList, stderr := "e".toList, returncode := 2,
            files := scanWorkspace "tmp".toList
              (run_msianalyzer_once "tmp".toList
                (ProcBehavior.completed "o".toList "e".toList 2 [])
                "BAT25".toList ["a_1.fq".toList] 0 3 false false 1 []
                ⟨[], []⟩ ⟨none, none⟩).2.1,
            fastq_paths := ["a_1.fq".toList].map fun n =>
              joinP (joinP "tmp".toList "fastq".toList) n,
            marker := "BAT25".toList } :=
  claim_C3_amended.1 "tmp".toList "o".toList "e".toList 2 [] "BAT25".toList
    ["a_1.fq".toList] 0 3 false false 1 [] ⟨[], []⟩ ⟨none, none⟩
    (by decide) (by decide)

/-- Claim C7: the primary argument vector is exactly
`[tool, "run-marker", marker, manifest]` followed by `--run-tests` iff the
test flag is set, `--skip-variant-summary` iff the skip flag is set, and
`--threads N` iff `N > 1`; the pileup vector is exactly
`[tool, "pileup", fastq, reference]`; and every subprocess of either
orchestration runs with the workspace directory as its working directory. -/
theorem claim_C7 :
    (∀ (marker manifest : Str) (rt sv : Bool) (th : Int),
        buildRunMarkerCmd marker manifest rt sv th
          = [toolName, "run-marker".toList, marker, manifest]
              ++ (if rt then ["--run-tests".toList] else [])
              ++ (if sv then ["--skip-variant-summary".toList] else [])
              ++ (if 1 < th then ["--threads".toList, pyStr th] else [])) ∧
    (∀ (tmpname : Str) (proc : ProcBehavior) (marker : Str)
        (names : List Str) (ms : ℚ) (au : Int) (rt sv : Bool) (th : Int)
        (gmt : Str) (fs : FS) (st : SessionState),
        (∀ c w, Event.subprocEv c w ∈
            (run_msianalyzer_once tmpname proc marker names ms au rt sv th
              gmt fs st).1 →
          c = buildRunMarkerCmd marker (joinP tmpname manifestName) rt sv th
            ∧ w = tmpname) ∧
        (marker ∈ MARKERS.map Prod.fst → names ≠ [] →
          Event.subprocEv
              (buildRunMarkerCmd marker (joinP tmpname manifestName) rt sv
                th) tmpname ∈
            (run_msianalyzer_once tmpname proc marker names ms au rt sv th
              gmt fs st).1)) ∧
    (∀ (hg38 : Option (List Str)) (proc : ProcBehavior) (marker fq : Str)
        (fs : FS) (st : SessionState) (tmpdir ref : Str),
        st.tmpdir = some tmpdir → tmpdir ∈ fs.dirs →
        get_reference_for_marker hg38 marker = Except.ok ref →
        fq ∈ fs.files →
        (Event.subprocEv [toolName, "pileup".toList, fq, ref] tmpdir ∈
            (run_pileup_and_show hg38 proc marker fq fs st).1) ∧
        (∀ c w, Event.subprocEv c w ∈
            (run_pileup_and_show hg38 proc marker fq fs st).1 →
          c = [toolName, "pileup".toList, fq, ref] ∧ w = tmpdir)) := by
  refine ⟨?_, ?_, ?_⟩
  · intro marker manifest rt sv th
    unfold buildRunMarkerCmd
    by_cases h : 1 < th
    · rw [if_pos h, if_pos (⟨by omega, h⟩ : th ≠ 0 ∧ th > 1)]
    · rw [if_neg h, if_neg (fun hc : th ≠ 0 ∧ th > 1 => h hc.2)]
  · intro tmpname proc marker names ms au rt sv th gmt fs st
    constructor
    · intro c w hmem
      unfold run_msianalyzer_once at hmem
      by_cases hne : (names.map fun n => joinP (joinP tmpname "fastq".toList)
          n) = []
      · rw [if_pos hne, hne] at hmem
        simp at hmem
      · rw [if_neg hne] at hmem
        cases hcfg : build_runtime_config marker
            (names.map fun n => joinP (joinP tmpname "fastq".toList) n)
            ms au gmt with
        | error e =>
          rw [hcfg] at hmem
          simp at hmem
        | ok cfg =>
          rw [hcfg] at hmem
          cases proc <;> simp at hmem <;> exact hmem
    · intro hm hn
      obtain ⟨cfg, hcfg⟩ := build_runtime_config_ok_of_mem marker
        (names.map fun n => joinP (joinP tmpname "fastq".toList) n) ms au
        gmt hm
      have hne : ¬ (names.map fun n => joinP (joinP tmpname "fastq".toList)
          n) = [] := by
        simp [hn]
      unfold run_msianalyzer_once
      rw [if_neg hne]
      simp only [hcfg]
      cases proc <;> simp
  · intro hg38 proc marker fq fs st tmpdir ref hst hdir href hfq
    unfold run_pileup_and_show
    simp only [hst, href, if_pos hdir, if_pos hfq]
    constructor
    · cases proc with
      | notFound => simp
      | timedOut => simp
      | completed o e rc cr =>
        by_cases hrc : rc ≠ 0
        · simp [hrc]
        · simp [hrc]
    · intro c w hmem
      cases proc with
      | notFound =>
        simp at hmem
        exact hmem
      | timedOut =>
        simp at hmem
        exact hmem
      | completed o e rc cr =>
        by_cases hrc : rc ≠ 0
        · simp [hrc] at hmem
          exact hmem
        · simp [hrc] at hmem
          exact hmem

/-- Claim C7 witness: the primary command is in the trace at a concrete
input. -/
theorem claim_C7_witness :
    Event.subprocEv
        (buildRunMarkerCmd "BAT25".toList (joinP "tmp".toList manifestName)
          true false 1)
        "tmp".toList ∈
      (run_msianalyzer_once "tmp".toList ProcBehavior.notFound
        "BAT25".toList ["a_1.fq".toList] 0 3 true false 1 [] ⟨[], []⟩
        ⟨none, none⟩).1 :=
  (claim_C7.2.1 "tmp".toList ProcBehavior.notFound "BAT25".toList
    ["a_1.fq".toList] 0 3 true false 1 [] ⟨[], []⟩ ⟨none, none⟩).2
    (by decide) (by decide)

theorem scanWorkspace_mono (tmpdir : Str) (fs1 fs2 : FS)
    (h : ∀ p, p ∈ fs1.files → p ∈ fs2.files) :
    ∀ fi, fi ∈ scanWorkspace tmpdir fs1 → fi ∈ scanWorkspace tmpdir fs2 := by
  intro fi hfi
  unfold scanWorkspace at hfi ⊢
  obtain ⟨p, hp, rfl⟩ := List.mem_map.mp hfi
  rw [List.mem_filter] at hp
  exact List.mem_map_of_mem _ (List.mem_filter.mpr ⟨h p hp.1, hp.2⟩)

/-- Claim C8: `refresh_results_files` is a full rescan that replaces the
stored inventory with the scan of the current workspace; scans are monotone
under file addition; and after a successful pileup the stored inventory is
the rescan of the grown workspace, a superset of the inventory scanned
right after the primary invocation. -/
theorem claim_C8 :
    (∀ (fs : FS) (st : SessionState) (tmpdir : Str) (res : Results),
        st.tmpdir = some tmpdir → st.results = some res → tmpdir ∈ fs.dirs →
        (refresh_results_files fs st).results
          = some { res with files := scanWorkspace tmpdir fs }) ∧
    (∀ (tmpdir : Str) (fs1 fs2 : FS),
        (∀ p, p ∈ fs1.files → p ∈ fs2.files) →
        ∀ fi, fi ∈ scanWorkspace tmpdir fs1 →
          fi ∈ scanWorkspace tmpdir fs2) ∧
    (∀ (hg38 : Option (List Str)) (out err : Str) (created : List Str)
        (marker fq : Str) (fs : FS) (st : SessionState) (tmpdir ref : Str)
        (res : Results),
        st.tmpdir = some tmpdir → tmpdir ∈ fs.dirs → st.results = some res →
        get_reference_for_marker hg38 marker = Except.ok ref →
        fq ∈ fs.files →
        (run_pileup_and_show hg38 (ProcBehavior.completed out err 0 created)
            marker fq fs st).2.2.results
          = some { res with
              files := scanWorkspace tmpdir ⟨fs.dirs, fs.files ++ created⟩ }
          ∧
        (∀ fi, fi ∈ scanWorkspace tmpdir fs →
            fi ∈ scanWorkspace tmpdir ⟨fs.dirs, fs.files ++ created⟩)) := by
  refine ⟨?_, ?_, ?_⟩
  · intro fs st tmpdir res hst hres hdir
    unfold refresh_results_files
    simp only [hst, hres, if_pos hdir]
  · exact scanWorkspace_mono
  · intro hg38 out err created marker fq fs st tmpdir ref res hst hdir hres
      href hfq
    constructor
    · unfold run_pileup_and_show
      simp only [hst, href, if_pos hdir, if_pos hfq]
      rw [if_neg (by simp : ¬ (0 : Int) ≠ 0)]
      unfold refresh_results_files
      simp only [hst, hres]
      rw [if_pos hdir]
    · exact scanWorkspace_mono tmpdir fs ⟨fs.dirs, fs.files ++ created⟩
        (fun p hp => List.mem_append_left _ hp)

/-- Claim C8 witness: a successful pileup at a concrete state stores the
rescan of the grown workspace. -/
theorem claim_C8_witness :
    (run_pileup_and_show (some ["BAT25.fa".toList])
        (ProcBehavior.completed [] [] 0 ["tmp/plot.png".toList])
        "BAT25".toList "tmp/a_1.fq".toList
        ⟨["tmp".toList], ["tmp/a_1.fq".toList]⟩
        ⟨some "tmp".toList,
         some ⟨[], [], 0, [], [], "BAT25".toList⟩⟩).2.2.results
      = some ⟨[], [], 0,
          scanWorkspace "tmp".toList
            ⟨["tmp".toList],
             ["tmp/a_1.fq".toList] ++ ["tmp/plot.png".toList]⟩,
          [], "BAT25".toList⟩ :=
  (claim_C8.2.2 (some ["BAT25.fa".toList]) [] [] ["tmp/plot.png".toList]
    "BAT25".toList "tmp/a_1.fq".toList
    ⟨["tmp".toList], ["tmp/a_1.fq".toList]⟩
    ⟨some "tmp".toList, some ⟨[], [], 0, [], [], "BAT25".toList⟩⟩
    "tmp".toList (joinP EXAMPLES_HG38_DIR "BAT25.fa".toList)
    ⟨[], [], 0, [], [], "BAT25".toList⟩
    rfl (by decide) rfl rfl (by decide)).1

/-- Claim C9: reference resolution fails exactly when the reference
directory is absent or no listed filename both carries a `.fa`/`.fasta`
extension and contains the marker id case-insensitively; and on that
failure the pileup invocation is aborted — no subprocess is run, the
filesystem is untouched, and the primary RunResult in session state is left
unchanged. -/
theorem claim_C9 :
    (∀ (hg38 : Option (List Str)) (marker : Str),
        (∃ e, get_reference_for_marker hg38 marker = Except.error e) ↔
          (hg38 = none ∨
            ∃ l, hg38 = some l ∧ ∀ f ∈ l, refHit marker f = false)) ∧
    (∀ (hg38 : Option (List Str)) (proc : ProcBehavior) (marker fq : Str)
        (fs : FS) (st : SessionState) (e : Str),
        get_reference_for_marker hg38 marker = Except.error e →
        (run_pileup_and_show hg38 proc marker fq fs st).2.2 = st ∧
        (run_pileup_and_show hg38 proc marker fq fs st).2.1 = fs ∧
        (∀ c w, Event.subprocEv c w ∉
          (run_pileup_and_show hg38 proc marker fq fs st).1)) := by
  constructor
  · intro hg38 marker
    cases hg38 with
    | none =>
      constructor
      · intro _
        exact Or.inl rfl
      · intro _
        exact ⟨refDirMissingMsg, rfl⟩
    | some l =>
      cases hf : l.find? (refHit marker) with
      | none =>
        have hval : get_reference_for_marker (some l) marker
            = Except.error refNoMatchMsg := by
          unfold get_reference_for_marker
          simp only [hf]
        simp only [hval]
        constructor
        · intro _
          refine Or.inr ⟨l, rfl, ?_⟩
          intro f hfl
          have hx := List.find?_eq_none.mp hf f hfl
          simpa using hx
        · intro _
          exact ⟨refNoMatchMsg, rfl⟩
      | some f =>
        have hval : get_reference_for_marker (some l) marker
            = Except.ok (joinP EXAMPLES_HG38_DIR f) := by
          unfold get_reference_for_marker
          simp only [hf]
        simp only [hval]
        constructor
        · rintro ⟨e, he⟩
          exact Except.noConfusion he
        · rintro (h | ⟨l2, hl2, hall⟩)
          · exact Option.noConfusion h
          · injection hl2 with hl
            subst hl
            have h1 := List.find?_some hf
            have h2 := hall f (List.mem_of_find?_eq_some hf)
            rw [h2] at h1
            exact Bool.noConfusion h1
  · intro hg38 proc marker fq fs st e he
    have h3 : ∃ msg, run_pileup_and_show hg38 proc marker fq fs st
        = ([Event.errorEv msg], fs, st) := by
      unfold run_pileup_and_show
      cases hst : st.tmpdir with
      | none => exact ⟨noWorkdirMsg, rfl⟩
      | some tmpdir =>
        by_cases hdir : tmpdir ∈ fs.dirs
        · refine ⟨e, ?_⟩
          simp only [if_pos hdir, he]
        · refine ⟨noWorkdirMsg, ?_⟩
          simp only [if_neg hdir]
    obtain ⟨msg, hmsg⟩ := h3
    rw [hmsg]
    exact ⟨rfl, rfl, fun c w => by simp⟩

/-- Claim C9 witness: a listing with no FASTA match aborts the pileup and
leaves the session state unchanged. -/
theorem claim_C9_witness :
    (run_pileup_and_show (some ["notes.txt".toList]) ProcBehavior.notFound
        "BAT25".toList "x".toList ⟨[], []⟩ ⟨none, none⟩).2.2
      = (⟨none, none⟩ : SessionState) :=
  (claim_C9.2 (some ["notes.txt".toList]) ProcBehavior.notFound
    "BAT25".toList "x".toList ⟨[], []⟩ ⟨none, none⟩ refNoMatchMsg rfl).1

end MSIApp
